import Mathlib

/-!
Verification of the layout-reconciliation core of ocrd_segment.

The Python sources (src/ocrd_segment/repair.py and
src/ocrd_segment/classify_address_layout.py) are shallowly embedded below.
Pure control flow (loops, accumulators, early exits, exceptions) is
translated directly; calls into external geometry libraries (shapely, cv2,
numpy) are modelled as oracle parameters (structures of functions), so that
every theorem is about the program's own logic over any behaviour of the
library, and counterexamples instantiate the oracle at values realizable by
the library.
-/

set_option autoImplicit false

namespace OcrdSegment

/-! ## Detection deduplication
(classify_address_layout.py, ClassifyAddressLayout.process, lines 203-232)

A detection carries a class id (preds.class_ids i), a confidence score
(preds.scores i) and a binary mask (preds.masks i), modelled as the list of
its foreground pixels. -/

structure Det where
  cat : Nat
  score : ℚ
  mask : List (Nat × Nat)
deriving DecidableEq

/-- np.any(imask * jmask): the two masks share at least one foreground pixel. -/
def overlapB (m1 m2 : List (Nat × Nat)) : Bool :=
  m1.any (fun p => m2.contains p)

/-- Indexing into the detection batch (total, with a dummy out of range). -/
def detAt (dets : List Det) (i : Nat) : Det :=
  dets.getD i ⟨0, 0, []⟩

/-- The `worse` list of lines 203-209: for every i < j whose masks overlap,
append the lower-scoring index (the later one, j, on a tie). -/
def worseList (dets : List Det) : List Nat :=
  (List.range dets.length).flatMap (fun i =>
    (List.range' (i + 1) (dets.length - (i + 1))).flatMap (fun j =>
      if overlapB (detAt dets i).mask (detAt dets j).mask then
        [if (detAt dets i).score < (detAt dets j).score then i else j]
      else []))

/-- One step of the `best` computation of lines 210-220, projected to the
cell `c` of the numpy array `best` (cells are updated independently). -/
def bestStep (dets : List Det) (worse : List Nat) (c : Nat) (b : ℚ) (i : Nat) : ℚ :=
  if worse.contains i then b
  else if ((detAt dets i).cat = 1 ∨ (detAt dets i).cat = 2) ∧ (detAt dets i).cat = c
          ∧ b < (detAt dets i).score then
    (detAt dets i).score
  else b

/-- best[c] after the first loop (lines 210-220): maximum score of the
non-worse detections of singleton class c (classes 1 and 2), starting at 0. -/
def bestScore (dets : List Det) (worse : List Nat) (c : Nat) : ℚ :=
  (List.range dets.length).foldl (bestStep dets worse c) 0

/-- One iteration of the annotation loop (lines 223-232): skip detections
marked worse, abort on the background class, skip non-best detections,
accept the rest. -/
def detStep (dets : List Det) (worse : List Nat) (acc : Except Unit (List Nat))
    (i : Nat) : Except Unit (List Nat) :=
  match acc with
  | .error e => .error e
  | .ok ks =>
    if worse.contains i then .ok ks
    else if (detAt dets i).cat = 0 then .error ()
    else if (detAt dets i).score < bestScore dets worse (detAt dets i).cat then .ok ks
    else .ok (ks ++ [i])

/-- The set of detections accepted for annotation by lines 223-232
(`Except.error ()` models the fatal `raise` for the background class). -/
def acceptedDetections (dets : List Det) : Except Unit (List Nat) :=
  (List.range dets.length).foldl (detStep dets (worseList dets)) (.ok [])

/-! ### String helpers
Python str.startswith and str.replace(pat, ''), written out over the
character lists of the strings so that they evaluate inside the kernel. -/

/-- Python s.startswith(pat), on character lists. -/
def startsWithCL : List Char → List Char → Bool
  | _, [] => true
  | [], _ :: _ => false
  | c :: s, p :: ps => c == p && startsWithCL s ps

/-- Python s.startswith(pat). -/
def pyStartsWith (s pat : String) : Bool :=
  startsWithCL s.data pat.data

/-- Python s.replace(pat, ''): delete every occurrence of pat in s.
Structural recursion on a fuel bounded by the length of s (every step
consumes at least one character, so the fuel never runs out). -/
def removeAllFuel (pat : List Char) : Nat → List Char → List Char
  | 0, s => s
  | _ + 1, [] => []
  | fuel + 1, c :: s =>
    if startsWithCL (c :: s) pat && !pat.isEmpty then
      removeAllFuel pat fuel (List.drop (pat.length - 1) s)
    else
      c :: removeAllFuel pat fuel s

/-- Python s.replace(pat, ''): delete every occurrence of pat in s. -/
def removeAllCL (pat : List Char) (s : List Char) : List Char :=
  removeAllFuel pat s.length s

/-- Python s.replace(pat, ''). -/
def pyRemoveAll (s pat : String) : String :=
  ⟨removeAllCL pat.data s.data⟩

/-- mark_line (classify_address_layout.py lines 167-180): whether the
upstream text classification tagged this line as address-bearing content
(custom tag stripped of 'subtype: ' starts with ADDRESS_ and is not the
explicit non-address class ADDRESS_NONE). -/
def markLineClass (custom : Option String) : Bool :=
  match custom with
  | none => false
  | some c =>
    let tc := pyRemoveAll c "subtype: "
    pyStartsWith tc "ADDRESS_" && !(tc == "ADDRESS_NONE")

/-- The keep condition realized by the annotation loop for an index, given
that no non-worse background detection precedes it: not marked worse, and
not below the best score of its class. -/
def keepB (dets : List Det) (worse : List Nat) (i : Nat) : Bool :=
  !(worse.contains i) &&
    !(decide ((detAt dets i).score < bestScore dets worse (detAt dets i).cat))

/-! ## Mask vectorization: the simplification loop
(classify_address_layout.py lines 251-256)

The shapely polygon type, .simplify and .is_valid are oracle parameters.
The loop is cumulative: each tolerance is applied to the polygon produced
by the previous tolerance, and the loop breaks at the first valid result. -/

/-- Python range(2, int(area)): the tolerances tried, 2, 3, ..., area-1. -/
def tolList (area : Nat) : List Nat :=
  List.range' 2 (area - 2)

/-- The loop body: region_poly = region_poly.simplify(tolerance);
if region_poly.is_valid: break. -/
def simplifyGo {P : Type} (simplify : P → Nat → P) (isValid : P → Bool) :
    P → List Nat → P
  | p, [] => p
  | p, t :: ts =>
    let p1 := simplify p t
    if isValid p1 then p1 else simplifyGo simplify isValid p1 ts

/-- Lines 252-255: the whole simplification loop, on the contour polygon. -/
def simplifyLoop {P : Type} (simplify : P → Nat → P) (isValid : P → Bool)
    (area : Nat) (p0 : P) : P :=
  simplifyGo simplify isValid p0 (tolList area)

/-- Line 256: region_poly.exterior.coords[:-1] — drop the closing vertex of
the exterior ring to keep the boundary open. -/
def openBoundary {Q : Type} (ring : List Q) : List Q :=
  ring.dropLast

namespace Repair

/-! ## Region plausibilization planner
(repair.py, RepairSegmentation.process, lines 93-166)

The shapely polygon operations are an oracle over an abstract polygon
type P; the planner's comparison cascade, its area sort, and the mark
accumulators are translated directly. -/

/-- The shapely primitives used by RepairSegmentation.process. -/
structure Geo (P : Type) where
  area : P → ℚ
  almostEquals : P → P → Bool
  contains : P → P → Bool
  overlaps : P → P → Bool
  interArea : P → P → ℚ
  unionHullArea : P → P → ℚ
  unionExterior : P → P → P

/-- The RegionPolygon namedtuple of line 102 (regions carry their id). -/
structure RegionPoly (P : Type) where
  id : String
  poly : P

/-- mark_for_deletion (a list of region ids) and mark_for_merging
(a dict from losing region id to surviving region id). -/
structure Marks where
  del : List String
  merge : List (String × String)
deriving DecidableEq

/-- Python dict assignment d[k] = v on an association list: overwrite the
existing binding in place, else append. -/
def dictSet {β : Type} : List (String × β) → String → β → List (String × β)
  | [], k, v => [(k, v)]
  | (k1, v1) :: rest, k, v =>
    if k1 = k then (k1, v) :: rest else (k1, v1) :: dictSet rest k v

/-- Lines 114-146: compare one pair (region1 at i, region2 at j > i of the
area-sorted list) and extend the marks. -/
def comparePair {P : Type} (geo : Geo P) (thr : ℚ) (r1 r2 : RegionPoly P)
    (acc : Marks) : Marks :=
  if geo.almostEquals r1.poly r2.poly then
    { acc with del := acc.del ++ [r2.id] }
  else if geo.contains r1.poly r2.poly then
    { acc with del := acc.del ++ [r2.id] }
  else if geo.contains r2.poly r1.poly then
    { acc with del := acc.del ++ [r1.id] }
  else if geo.overlaps r1.poly r2.poly then
    if geo.area r1.poly + geo.area r2.poly ≤ geo.unionHullArea r1.poly r2.poly then
      acc
    else if thr < geo.interArea r1.poly r2.poly / geo.area r2.poly then
      { acc with merge := dictSet acc.merge r2.id r1.id }
    else if thr < geo.interArea r1.poly r2.poly / geo.area r1.poly then
      { acc with merge := dictSet acc.merge r1.id r2.id }
    else acc
  else acc

/-- The double loop of lines 106-146 over the area-sorted region list. -/
def pairLoop {P : Type} (geo : Geo P) (thr : ℚ) :
    List (RegionPoly P) → Marks → Marks
  | [], acc => acc
  | r1 :: rest, acc =>
    pairLoop geo thr rest (rest.foldl (fun a r2 => comparePair geo thr r1 r2 a) acc)

/-- Stable insertion of a region into an area-ascending list (after all
regions of smaller or equal area), as Python's stable sorted(). -/
def insertRP {P : Type} (geo : Geo P) (x : RegionPoly P) :
    List (RegionPoly P) → List (RegionPoly P)
  | [] => [x]
  | y :: ys =>
    if geo.area y.poly ≤ geo.area x.poly then y :: insertRP geo x ys
    else x :: y :: ys

/-- Lines 103-105: sorted(regionspolys, key=area), stable and ascending. -/
def sortByArea {P : Type} (geo : Geo P) (rps : List (RegionPoly P)) :
    List (RegionPoly P) :=
  rps.foldl (fun acc x => insertRP geo x acc) []

/-- The whole planner: sort by area, then run the comparison double loop. -/
def planMarks {P : Type} (geo : Geo P) (thr : ℚ) (rps : List (RegionPoly P)) :
    Marks :=
  pairLoop geo thr (sortByArea geo rps) ⟨[], []⟩

/-! ## Reading order and plan execution
(repair.py, _plausibilize_group, lines 316-401)

PAGE reading-order groups keep each child element kind in its own list:
an (indexed) group holds RegionRef(Indexed), OrderedGroup(Indexed) and
UnorderedGroup(Indexed) children.  _plausibilize_group reflects on the
class name of a removed element to fetch exactly one of those sibling
lists, so the model keeps the three lists separate as well. -/

/-- A RegionRef / RegionRefIndexed reading-order element. -/
structure ROElem where
  regionRef : String
  index : Nat
deriving DecidableEq

/-- A reading-order group: ordered or unordered, with an optional region
reference and (when under an ordered parent) an index of its own, and with
its three kind-separated child lists. -/
inductive ROGroup where
  | mk (isOrdered : Bool) (regionRef : String) (index : Nat)
      (refs : List ROElem) (ogs : List ROGroup) (ugs : List ROGroup)

def ROGroup.isOrdered : ROGroup → Bool
  | .mk o _ _ _ _ _ => o

def ROGroup.regionRef : ROGroup → String
  | .mk _ r _ _ _ _ => r

def ROGroup.index : ROGroup → Nat
  | .mk _ _ i _ _ _ => i

def ROGroup.refs : ROGroup → List ROElem
  | .mk _ _ _ f _ _ => f

def ROGroup.ogs : ROGroup → List ROGroup
  | .mk _ _ _ _ g _ => g

def ROGroup.ugs : ROGroup → List ROGroup
  | .mk _ _ _ _ _ u => u

def ROGroup.setIndex : ROGroup → Nat → ROGroup
  | .mk o r _ f g u, i => .mk o r i f g u

/-- The three child-element kinds a reading-order reference can live in
(the class-name reflection of line 387 selects one of these lists). -/
inductive Kind where
  | refs | ogs | ugs
deriving DecidableEq

/-- A page's TextRegion entry (id plus its Coords polygon). -/
structure RRegion (P : Type) where
  id : String
  coords : P

/-- Lines 330-331: reading_order[elem.get_regionRef()] = elem, built over
RegionRefIndexed ++ OrderedGroupIndexed ++ UnorderedGroupIndexed (or the
unindexed triple), with Python dict overwrite semantics.  Elements are
identified by their regionRef and the list kind they live in. -/
def roChildrenDict (g : ROGroup) : List (String × Kind) :=
  (g.refs.map (fun e => (e.regionRef, Kind.refs))
    ++ g.ogs.map (fun s => (s.regionRef, Kind.ogs))
    ++ g.ugs.map (fun s => (s.regionRef, Kind.ugs))).foldl
    (fun d kv => dictSet d kv.1 kv.2) []

/-- Python list.remove for RegionRef elements: drop the first element with
the given regionRef. -/
def removeElemByRef : List ROElem → String → List ROElem
  | [], _ => []
  | e :: rest, rid => if e.regionRef = rid then rest else e :: removeElemByRef rest rid

/-- Python list.remove for group elements: drop the first group with the
given regionRef. -/
def removeGroupByRef : List ROGroup → String → List ROGroup
  | [], _ => []
  | g :: rest, rid => if g.regionRef = rid then rest else g :: removeGroupByRef rest rid

/-- Python list.remove on the page's TextRegion list: drop the first region
with the given id, or raise ValueError (Except.error) if it is absent. -/
def removeId {P : Type} : List (RRegion P) → String → Except Unit (List (RRegion P))
  | [], _ => .error ()
  | r :: rest, rid =>
    if r.id = rid then .ok rest
    else (removeId rest rid).map (fun ys => r :: ys)

/-- Mutate the coords of the region with the given id (Python mutates the
region object in place; region ids are unique). -/
def updateCoords {P : Type} (rs : List (RRegion P)) (rid : String) (f : P → P) :
    List (RRegion P) :=
  rs.map (fun r => if r.id = rid then { r with coords := f r.coords } else r)

/-- Find a region object by id. -/
def findRegion {P : Type} (rs : List (RRegion P)) (rid : String) :
    Option (RRegion P) :=
  rs.find? (fun r => r.id = rid)

/-- Stable insertion by the second component, ascending (Python list.sort). -/
def insertIdx (x : Nat × Nat) : List (Nat × Nat) → List (Nat × Nat)
  | [] => [x]
  | y :: ys => if y.2 ≤ x.2 then y :: insertIdx x ys else x :: y :: ys

/-- Stable sort of (position, index) pairs by index, as list.sort(key=get_index). -/
def sortIdx (l : List (Nat × Nat)) : List (Nat × Nat) :=
  l.foldl (fun acc x => insertIdx x acc) []

/-- Lines 393-395 as a rank computation: position p's element receives the
new index at which it appears in the stable index-sort of the list. -/
def rankPositions (idxs : List Nat) : List Nat :=
  (List.range idxs.length).map
    (fun p => (sortIdx idxs.enum).findIdx (fun e => e.1 == p))

/-- Re-index a RegionRefIndexed list: sort by old index, then enumerate. -/
def reindexElems (es : List ROElem) : List ROElem :=
  List.zipWith (fun (e : ROElem) (i : Nat) => { e with index := i }) es
    (rankPositions (es.map ROElem.index))

/-- Re-index a group-element list: sort by old index, then enumerate. -/
def reindexGroups (gs : List ROGroup) : List ROGroup :=
  List.zipWith ROGroup.setIndex gs (rankPositions (gs.map ROGroup.index))

/-- Re-index the concatenation of all three child lists (the case where no
element was removed and `regionrefs` still holds the concatenated copy of
line 322; set_index mutates the shared child objects). -/
def reindexAll (refs : List ROElem) (ogs ugs : List ROGroup) :
    List ROElem × List ROGroup × List ROGroup :=
  let ranks := rankPositions
    (refs.map ROElem.index ++ ogs.map ROGroup.index ++ ugs.map ROGroup.index)
  (List.zipWith (fun (e : ROElem) (i : Nat) => { e with index := i }) refs ranks,
   List.zipWith ROGroup.setIndex ogs (ranks.drop refs.length),
   List.zipWith ROGroup.setIndex ugs (ranks.drop (refs.length + ogs.length)))

/-- Accumulator of the marked-region loop of lines 335-389: the three live
child lists, the list last assigned to the `regionrefs` variable (line 387),
the wait_for_deletion ids, and the page's TextRegion list. -/
structure RemovalAcc (P : Type) where
  refs : List ROElem
  ogs : List ROGroup
  ugs : List ROGroup
  touched : Option Kind
  waitIds : List String
  page : List (RRegion P)

/-- One iteration of the loop of lines 335-389 for one (area-sorted) region:
if it is marked, apply the merge geometry to the surviving superregion,
queue the region for deletion, and remove its reading-order element from
the sibling list of its own kind. -/
def markedStep {P : Type} (geo : Geo P) (mfd : List String)
    (mfm : List (String × String)) (ro : List (String × Kind))
    (acc : RemovalAcc P) (rp : RegionPoly P) : RemovalAcc P :=
  if mfd.contains rp.id || (mfm.lookup rp.id).isSome then
    let acc1 :=
      match mfm.lookup rp.id with
      | some superId =>
        { acc with
          page := updateCoords acc.page superId (fun c => geo.unionExterior c rp.poly) }
      | none => acc
    let acc2 := { acc1 with waitIds := acc1.waitIds ++ [rp.id] }
    match ro.lookup rp.id with
    | some Kind.refs =>
      { acc2 with refs := removeElemByRef acc2.refs rp.id, touched := some Kind.refs }
    | some Kind.ogs =>
      { acc2 with ogs := removeGroupByRef acc2.ogs rp.id, touched := some Kind.ogs }
    | some Kind.ugs =>
      { acc2 with ugs := removeGroupByRef acc2.ugs rp.id, touched := some Kind.ugs }
    | none => acc2
  else acc

/-- Lines 397-400: remove every queued region from the page's TextRegion
list (list.remove raises ValueError when the region is no longer there). -/
def deleteWaiting {P : Type} (page : List (RRegion P)) :
    List String → Except Unit (List (RRegion P))
  | [] => .ok page
  | rid :: rest => do
    let page1 ← removeId page rid
    deleteWaiting page1 rest

mutual

/-- _plausibilize_group (lines 316-400) on one group: build the direct
reading_order dict, recurse into subgroup children, run the marked-region
loop, re-index (only the list last touched by a removal, or the combined
copy when nothing was removed), then delete the queued regions from the
page. -/
def plausGroup {P : Type} (geo : Geo P) (rps : List (RegionPoly P))
    (mfd : List String) (mfm : List (String × String)) (g : ROGroup)
    (page : List (RRegion P)) : Except Unit (ROGroup × List (RRegion P)) :=
  match g with
  | .mk o ref idx refs ogs ugs => do
    let ro := roChildrenDict (.mk o ref idx refs ogs ugs)
    let (ogs1, page1) ← plausGroups geo rps mfd mfm ogs page
    let (ugs1, page2) ← plausGroups geo rps mfd mfm ugs page1
    let acc := rps.foldl (markedStep geo mfd mfm ro)
      ⟨refs, ogs1, ugs1, none, [], page2⟩
    let (refs2, ogs2, ugs2) :=
      if o then
        match acc.touched with
        | none =>
          reindexAll acc.refs acc.ogs acc.ugs
        | some Kind.refs => (reindexElems acc.refs, acc.ogs, acc.ugs)
        | some Kind.ogs => (acc.refs, reindexGroups acc.ogs, acc.ugs)
        | some Kind.ugs => (acc.refs, acc.ogs, reindexGroups acc.ugs)
      else (acc.refs, acc.ogs, acc.ugs)
    let page3 ← deleteWaiting acc.page acc.waitIds
    return (.mk o ref idx refs2 ogs2 ugs2, page3)

/-- Recursion of line 334 over a list of subgroup children, in order. -/
def plausGroups {P : Type} (geo : Geo P) (rps : List (RegionPoly P))
    (mfd : List String) (mfm : List (String × String)) (gs : List ROGroup)
    (page : List (RRegion P)) : Except Unit (List ROGroup × List (RRegion P)) :=
  match gs with
  | [] => .ok ([], page)
  | g :: rest => do
    let (g1, page1) ← plausGroup geo rps mfd mfm g page
    let (rest1, page2) ← plausGroups geo rps mfd mfm rest page1
    return (g1 :: rest1, page2)

end

/-- _plausibilize_group when process() passes rogroup = None (no reading
order): only the merge geometry and the page deletions happen. -/
def plausTop {P : Type} (geo : Geo P) (rps : List (RegionPoly P))
    (mfd : List String) (mfm : List (String × String)) (g? : Option ROGroup)
    (page : List (RRegion P)) :
    Except Unit (Option ROGroup × List (RRegion P)) :=
  match g? with
  | some g => (plausGroup geo rps mfd mfm g page).map
      (fun r => (some r.1, r.2))
  | none =>
    let acc := rps.foldl (markedStep geo mfd mfm [])
      ⟨[], [], [], none, [], page⟩
    (deleteWaiting acc.page acc.waitIds).map (fun p => (none, p))

/-- RepairSegmentation.process with plausibilize=True (lines 93-166): plan
the marks over the area-sorted regions of the page, then execute them on
the reading order and the page. -/
def repairPage {P : Type} (geo : Geo P) (thr : ℚ) (page : List (RRegion P))
    (g? : Option ROGroup) :
    Except Unit (Option ROGroup × List (RRegion P)) :=
  let rps := sortByArea geo (page.map (fun r => ⟨r.id, r.coords⟩))
  let marks := pairLoop geo thr rps ⟨[], []⟩
  plausTop geo rps marks.del marks.merge g? page

end Repair

namespace Classify

/-! ## Detector-replacement region stealing
(classify_address_layout.py, ClassifyAddressLayout.process, lines 263-324)

For one accepted detection: a fresh TextRegion candidate is created with no
text lines; existing regions matched by the geometric condition of lines
276-280 are superseded — their lines are stolen and renamed, the page list
loses them, and their reading-order element is redirected to the candidate.
The candidate is added to the page only if some stolen line's custom tag
starts with 'subtype: ADDRESS_' (the ghost-detection guard, lines 319-324). -/

/-- The shapely primitives used by the steal loop. -/
structure CGeo (P : Type) where
  within : P → P → Bool
  buffer : P → Nat → P
  intersects : P → P → Bool
  almostEquals : P → P → Bool
  interArea : P → P → ℚ
  area : P → ℚ
  crosses : P → P → Bool
  overlaps : P → P → Bool
  union : P → P → P
  isMulti : P → Bool
  convexHull : P → P

/-- A TextLine (id, custom classification tag, polygon, text content). -/
structure CLine (P : Type) where
  id : String
  custom : Option String
  poly : P
  text : Option String

/-- A TextRegion (id, owned lines, Coords polygon, TextEquiv content). -/
structure CRegion (P : Type) where
  id : String
  lines : List (CLine P)
  poly : P
  text : Option String

/-- Python '%02d' % n. -/
def pad2 (n : Nat) : String :=
  if n < 10 then "0" ++ toString n else toString n

/-- Line 263: region_id = 'addressregion%02d' % (i+1). -/
def regionIdFor (i : Nat) : String :=
  "addressregion" ++ pad2 (i + 1)

/-- Lines 237-238: scale = int(sqrt(area)//10), forced odd. -/
def detScale (area : Nat) : Nat :=
  let s := Nat.sqrt area / 10
  s + (s + 1) % 2

/-- Line 286: line.get_custom() and line.get_custom().startswith('subtype: ADDRESS_').
Note this check is satisfied by 'subtype: ADDRESS_NONE' as well. -/
def stealCheck (custom : Option String) : Bool :=
  match custom with
  | none => false
  | some c => pyStartsWith c "subtype: ADDRESS_"

/-- Lines 301-303: '\n'.join(line text for the region's lines that have one). -/
def joinTexts {P : Type} (lines : List (CLine P)) : String :=
  String.intercalate "\n" (lines.filterMap (fun l => l.text))

/-- Python del d[key] on an association list. -/
def dictRemove {β : Type} : List (String × β) → String → List (String × β)
  | [], _ => []
  | (k1, v1) :: rest, k =>
    if k1 = k then rest else (k1, v1) :: dictRemove rest k

/-- Lines 308-312: if the superseded region is referenced by the reading
order, point its element at the candidate and re-key the dict entry.  The
dict maps a region id to the regionRef its element carries. -/
def roRedirect (ro : List (String × String)) (nid rid : String) :
    List (String × String) :=
  match ro.lookup nid with
  | none => ro
  | some _ => dictRemove (Repair.dictSet ro rid rid) nid

/-- Python list.remove on the page's TextRegion list.  Within one detection
every matched neighbour is removed exactly once (the oldregions guard), so
the element is always present and no ValueError can occur here. -/
def removeRegionById {P : Type} : List (CRegion P) → String → List (CRegion P)
  | [], _ => []
  | r :: rest, rid => if r.id = rid then rest else r :: removeRegionById rest rid

/-- The mutable state of the steal loop: the candidate's line list, its
evolving polygon, its TextEquiv, the ghost-detection flag, the oldregions
list, the page's region list and the reading-order dict. -/
structure StealState (P : Type) where
  regionLines : List (CLine P)
  regionPoly : P
  regionText : Option String
  hasAddress : Bool
  oldRegions : List String
  page : List (CRegion P)
  ro : List (String × String)

/-- Lines 285-300: steal one text line — record whether its tag passes the
address check, rename it under the candidate's namespace with the next
ordinal, append it to the candidate, and grow the candidate's polygon by
the line's polygon when the line sticks out (union, convex hull if the
union falls apart into a MultiPolygon). -/
def stealLineStep {P : Type} (geo : CGeo P) (rid : String)
    (st : StealState P) (line : CLine P) : StealState P :=
  let hasA := st.hasAddress || stealCheck line.custom
  let line1 := { line with id := rid ++ "_line" ++ pad2 st.regionLines.length }
  let lines1 := st.regionLines ++ [line1]
  let rp :=
    if geo.within line.poly st.regionPoly then st.regionPoly
    else
      let u := geo.union line.poly st.regionPoly
      if geo.isMulti u then geo.convexHull u else u
  { st with hasAddress := hasA, regionLines := lines1, regionPoly := rp }

/-- Lines 276-280: the matching condition for a neighbouring region, against
the candidate's current polygon. -/
def nbMatch {P : Type} (geo : CGeo P) (scale : Nat) (nbPoly rp : P) : Bool :=
  geo.within nbPoly rp
  || geo.within nbPoly (geo.buffer rp (4 * scale))
  || (geo.intersects nbPoly rp
      && (geo.almostEquals nbPoly rp
          || (8 : ℚ) / 10 * geo.area nbPoly < geo.interArea nbPoly rp))

/-- Lines 273-318: process one neighbouring region — skip regions already
superseded, steal the lines of a matching region, refresh the candidate's
TextEquiv, remove the region from the page and redirect its reading-order
element; crossing or merely overlapping regions are only logged. -/
def stealNeighbourStep {P : Type} (geo : CGeo P) (scale : Nat) (rid : String)
    (st : StealState P) (nb : CRegion P) : StealState P :=
  if st.oldRegions.contains nb.id then st
  else if nbMatch geo scale nb.poly st.regionPoly then
    let st1 := nb.lines.foldl (stealLineStep geo rid) st
    let st2 := { st1 with regionText := some (joinTexts st1.regionLines) }
    let st3 := { st2 with oldRegions := st2.oldRegions ++ [nb.id] }
    let st4 := { st3 with page := removeRegionById st3.page nb.id }
    { st4 with ro := roRedirect st4.ro nb.id rid }
  else st

/-- The observable outcome for one detection. -/
structure DetOutcome (P : Type) where
  added : Bool
  regionLines : List (CLine P)
  regionPoly : P
  regionText : Option String
  page : List (CRegion P)
  ro : List (String × String)

/-- Lines 263-324 for one accepted detection: start from a fresh candidate
region with no lines, run the steal loop over all neighbours, then add the
candidate to the page only when the ghost-detection guard passes. -/
def runDetection {P : Type} (geo : CGeo P) (scale : Nat) (rid : String)
    (poly0 : P) (nbs : List (CRegion P)) (page0 : List (CRegion P))
    (ro0 : List (String × String)) : DetOutcome P :=
  let st0 : StealState P := ⟨[], poly0, none, false, [], page0, ro0⟩
  let st := nbs.foldl (stealNeighbourStep geo scale rid) st0
  let region : CRegion P := ⟨rid, st.regionLines, st.regionPoly, st.regionText⟩
  let page1 := if st.hasAddress then st.page ++ [region] else st.page
  ⟨st.hasAddress, st.regionLines, st.regionPoly, st.regionText, page1, st.ro⟩

end Classify

/-! ## Concrete instances for the counterexamples and witnesses

All oracle instances below use simple polygon handles (P = Nat) and
oracle values either Boolean or integer-valued rationals; a doc comment at
each one records a real shapely configuration realizing it. -/

/-- C1 counterexample oracle over polygon handles 0 (region A) and 1
(region B): B is strictly inside A yet the two are almost equal — realized
in shapely by A = the square (0,0)-(10,10) and B = the same square inset by
1e-9, for which A.contains(B) is True, B.contains(A) is False, and
A.almost_equals(B) is True at the default 6-decimal tolerance, with
area(B) < area(A). -/
def exC1geo : Repair.Geo Nat :=
  { area := fun p => if p = 0 then 100 else 99
    almostEquals := fun _ _ => true
    contains := fun a b => a == 0 && b == 1
    overlaps := fun _ _ => false
    interArea := fun _ _ => 0
    unionHullArea := fun _ _ => 0
    unionExterior := fun c _ => c }

/-- C1 counterexample input: region A (handle 0) and region B (handle 1). -/
def exC1rps : List (Repair.RegionPoly Nat) := [⟨"A", 0⟩, ⟨"B", 1⟩]

/-- Witness oracle for the amended C1: a strictly contained pair that is not
almost equal (e.g. a large square containing a small off-centre square). -/
def exC1wgeo : Repair.Geo Nat :=
  { area := fun p => if p = 0 then 100 else 9
    almostEquals := fun _ _ => false
    contains := fun a b => a == 0 && b == 1
    overlaps := fun _ _ => false
    interArea := fun _ _ => 0
    unionHullArea := fun _ _ => 0
    unionExterior := fun c _ => c }

/-- Witness oracle for C4: two overlapping polygons whose union's convex
hull does not shrink the footprint (hull area 20 ≥ 10 + 10) — two squares
joined by a thin bridge. -/
def exC4geo : Repair.Geo Nat :=
  { area := fun _ => 10
    almostEquals := fun _ _ => false
    contains := fun _ _ => false
    overlaps := fun _ _ => true
    interArea := fun _ _ => 1
    unionHullArea := fun _ _ => 20
    unionExterior := fun c _ => c }

/-- Witness oracle for C5: A (handle 0, area 1) overlaps B (handle 1,
area 2) with intersection area 1, and the hull guard does not fire
(hull area 2 < 1 + 2). -/
def exC5geo : Repair.Geo Nat :=
  { area := fun p => if p = 0 then 1 else 2
    almostEquals := fun _ _ => false
    contains := fun _ _ => false
    overlaps := fun _ _ => true
    interArea := fun _ _ => 1
    unionHullArea := fun _ _ => 2
    unionExterior := fun c _ => c }

/-- Trivial repair geometry for pure-deletion executor runs (the planner's
predicates are never consulted by the executor for a deletion). -/
def exC2geo : Repair.Geo Nat :=
  ⟨fun _ => 0, fun _ _ => false, fun _ _ => false, fun _ _ => false,
   fun _ _ => 0, fun _ _ => 0, fun c _ => c⟩

/-- C2 failing input: an Ordered top group with two RegionRefIndexed
children a (index 0) and b (index 1) and one OrderedGroupIndexed subgroup
child g (index 2). -/
def exC2group : Repair.ROGroup :=
  .mk true "" 0 [⟨"a", 0⟩, ⟨"b", 1⟩] [.mk true "g" 2 [] [] []] []

/-- C2 failing input: the page regions a and b. -/
def exC2page : List (Repair.RRegion Nat) := [⟨"a", 0⟩, ⟨"b", 1⟩]

/-- C2 failing input: the area-sorted regionspolys list. -/
def exC2rps : List (Repair.RegionPoly Nat) := [⟨"a", 0⟩, ⟨"b", 1⟩]

/-- C9 counterexample oracle: the union of the surviving region's polygon
with the loser's is observable as addition on the polygon handles. -/
def exC9geo : Repair.Geo Nat :=
  ⟨fun _ => 0, fun _ _ => false, fun _ _ => false, fun _ _ => false,
   fun _ _ => 0, fun _ _ => 0, fun c p => c + p⟩

/-- C9 counterexample: a flat Ordered group referencing a and b. -/
def exC9group : Repair.ROGroup :=
  .mk true "" 0 [⟨"a", 0⟩, ⟨"b", 1⟩] [] []

/-- C9 counterexample: page regions a (coords 10) and b (coords 20). -/
def exC9page : List (Repair.RRegion Nat) := [⟨"a", 10⟩, ⟨"b", 20⟩]

/-- C9 counterexample: the area-sorted regionspolys list. -/
def exC9rps : List (Repair.RegionPoly Nat) := [⟨"a", 10⟩, ⟨"b", 20⟩]

/-- C6 counterexample batch: a class-1 detection scoring 9 and a background
(class 0) detection scoring 5 whose masks share pixel (0,0), so the
background detection is marked worse.  (Scores are scaled by 10; only
their order matters.) -/
def exC6 : List Det := [⟨1, 9, [(0, 0)]⟩, ⟨0, 5, [(0, 0)]⟩]

/-- C6 witness batch: a single non-worse background detection. -/
def exC6w : List Det := [⟨0, 9, [(0, 0)]⟩]

/-- C7 witness batch: two detections of singleton class 1 scoring 0.9 and
0.6 (scaled by 10) with disjoint masks. -/
def exC7 : List Det := [⟨1, 9, [(0, 0)]⟩, ⟨1, 6, [(2, 2)]⟩]

/-- C10 counterexample batch: detections 0 and 1 overlap with equal scores
(their pair marks 1 worse), but detection 0 also overlaps the
higher-scoring detection 2, so 0 does not survive the stage either. -/
def exC10 : List Det :=
  [⟨1, 5, [(0, 0), (1, 1)]⟩, ⟨1, 5, [(0, 0)]⟩, ⟨1, 9, [(1, 1)]⟩]

/-- C10 witness batch: two overlapping detections with equal scores and no
third detection. -/
def exC10w : List Det := [⟨1, 5, [(0, 0)]⟩, ⟨1, 5, [(0, 0)]⟩]

/-- C3 counterexample simplify oracle: simplification that leaves the
polygon unchanged (e.g. a degenerate zero-area contour polygon that
Douglas-Peucker simplification cannot repair). -/
def exC3simplify : Nat → Nat → Nat := fun p _ => p

/-- C3 counterexample validity oracle: the polygon handle 0 stands for an
invalid (self-intersecting or degenerate) polygon at every stage. -/
def exC3valid : Nat → Bool := fun _ => false

/-- C3 witness simplify oracle: each tolerance deforms the polygon handle
by adding the tolerance. -/
def exC3wsimplify : Nat → Nat → Nat := fun p t => p + t

/-- C3 witness validity oracle: handles of value at least 10 are valid. -/
def exC3wvalid : Nat → Bool := fun p => decide (10 ≤ p)

/-- C8/C9 classify oracle: the candidate region swallows every neighbour
(within is always true), unions are observable as addition. -/
def exC8geo : Classify.CGeo Nat :=
  ⟨fun _ _ => true, fun p _ => p, fun _ _ => true, fun _ _ => false,
   fun _ _ => 0, fun _ => 0, fun _ _ => false, fun _ _ => false,
   fun a b => a + b, fun _ => false, fun p => p⟩

/-- C8 counterexample neighbour: an existing region whose single line is
tagged 'subtype: ADDRESS_NONE' — explicitly classified as carrying no
address content by the upstream step. -/
def exC8nb : Classify.CRegion Nat :=
  ⟨"r0", [⟨"r0_l0", some "subtype: ADDRESS_NONE", 5, some "hello"⟩], 7, none⟩

/-! ## Helper lemmas: detection deduplication -/

theorem mem_worseList {dets : List Det} {m : Nat} :
    m ∈ worseList dets ↔ ∃ i j, i < j ∧ j < dets.length ∧
      overlapB (detAt dets i).mask (detAt dets j).mask = true ∧
      m = if (detAt dets i).score < (detAt dets j).score then i else j := by
  unfold worseList
  simp only [List.mem_flatMap, List.mem_range, List.mem_range'_1]
  constructor
  · rintro ⟨i, hi, j, hj, hm⟩
    by_cases hov : overlapB (detAt dets i).mask (detAt dets j).mask
    · simp only [if_pos hov, List.mem_singleton] at hm
      exact ⟨i, j, by omega, by omega, hov, hm⟩
    · simp [hov] at hm
  · rintro ⟨i, j, hij, hj, hov, hm⟩
    refine ⟨i, by omega, j, ⟨by omega, by omega⟩, ?_⟩
    simp [hov, hm]

theorem detFold_error (dets : List Det) (worse : List Nat) (L : List Nat)
    (e : Unit) : L.foldl (detStep dets worse) (.error e) = .error e := by
  induction L with
  | nil => rfl
  | cons x xs ih => simpa [detStep] using ih

theorem detFold_bg (dets : List Det) (worse : List Nat) (L : List Nat) :
    ∀ ks : List Nat,
      (∃ i ∈ L, worse.contains i = false ∧ (detAt dets i).cat = 0) →
      L.foldl (detStep dets worse) (.ok ks) = .error () := by
  induction L with
  | nil => rintro ks ⟨i, hi, -⟩; cases hi
  | cons x xs ih =>
    rintro ks ⟨i, hi, hwi, hci⟩
    rcases List.mem_cons.mp hi with rfl | hi2
    · have hwi2 : i ∉ worse := by simpa using hwi
      have hstep : detStep dets worse (.ok ks) i = .error () := by
        simp [detStep, hwi2, hci]
      rw [List.foldl_cons, hstep, detFold_error]
    · rw [List.foldl_cons]
      cases hsx : detStep dets worse (.ok ks) x with
      | error e => cases e; exact detFold_error dets worse xs ()
      | ok ks2 => exact ih ks2 ⟨i, hi2, hwi, hci⟩

theorem detFold_ok (dets : List Det) (worse : List Nat) (L : List Nat) :
    ∀ ks : List Nat,
      (∀ i ∈ L, worse.contains i = false → (detAt dets i).cat ≠ 0) →
      L.foldl (detStep dets worse) (.ok ks) =
        .ok (ks ++ L.filter (keepB dets worse)) := by
  induction L with
  | nil => intro ks _; simp
  | cons x xs ih =>
    intro ks h
    have hrest : ∀ i ∈ xs, worse.contains i = false → (detAt dets i).cat ≠ 0 :=
      fun i hi => h i (List.mem_cons_of_mem x hi)
    rw [List.foldl_cons]
    by_cases hwx : x ∈ worse
    · have hstep : detStep dets worse (.ok ks) x = .ok ks := by
        simp [detStep, hwx]
      have hkeep : keepB dets worse x = false := by simp [keepB, hwx]
      rw [hstep, ih ks hrest, List.filter_cons, hkeep]
      simp
    · have hwx2 : worse.contains x = false := by simpa using hwx
      have hcx : (detAt dets x).cat ≠ 0 := h x (List.mem_cons_self x xs) hwx2
      by_cases hsc : (detAt dets x).score < bestScore dets worse (detAt dets x).cat
      · have hstep : detStep dets worse (.ok ks) x = .ok ks := by
          simp [detStep, hwx, hcx, hsc]
        have hkeep : keepB dets worse x = false := by simp [keepB, hsc]
        rw [hstep, ih ks hrest, List.filter_cons, hkeep]
        simp
      · have hstep : detStep dets worse (.ok ks) x = .ok (ks ++ [x]) := by
          simp [detStep, hwx, hcx, hsc]
        have hkeep : keepB dets worse x = true := by simp [keepB, hwx, hsc]
        rw [hstep, ih (ks ++ [x]) hrest, List.filter_cons, hkeep]
        simp

theorem bestStep_le (dets : List Det) (worse : List Nat) (c : Nat) (b : ℚ)
    (i : Nat) : b ≤ bestStep dets worse c b i := by
  by_cases h1 : worse.contains i = true
  · unfold bestStep
    rw [if_pos h1]
  · by_cases h2 : ((detAt dets i).cat = 1 ∨ (detAt dets i).cat = 2) ∧
        (detAt dets i).cat = c ∧ b < (detAt dets i).score
    · unfold bestStep
      rw [if_neg h1, if_pos h2]
      exact le_of_lt h2.2.2
    · unfold bestStep
      rw [if_neg h1, if_neg h2]

theorem bestFold_mono (dets : List Det) (worse : List Nat) (c : Nat)
    (L : List Nat) : ∀ b : ℚ, b ≤ L.foldl (bestStep dets worse c) b := by
  induction L with
  | nil => intro b; simp
  | cons x xs ih =>
    intro b
    rw [List.foldl_cons]
    exact le_trans (bestStep_le dets worse c b x) (ih _)

theorem bestFold_ge (dets : List Det) (worse : List Nat) (c : Nat)
    (L : List Nat) :
    ∀ (b : ℚ) (i : Nat), i ∈ L → worse.contains i = false →
      (detAt dets i).cat = c →
      ((detAt dets i).cat = 1 ∨ (detAt dets i).cat = 2) →
      (detAt dets i).score ≤ L.foldl (bestStep dets worse c) b := by
  induction L with
  | nil => intro b i hi; cases hi
  | cons x xs ih =>
    intro b i hi hw hc hcase
    rcases List.mem_cons.mp hi with rfl | hi2
    · rw [List.foldl_cons]
      have hw2 : i ∉ worse := by simpa using hw
      by_cases hlt : b < (detAt dets i).score
      · have hstep : bestStep dets worse c b i = (detAt dets i).score := by
          simp [bestStep, hw2, hc, hlt, hc ▸ hcase]
        rw [hstep]
        exact bestFold_mono dets worse c xs _
      · exact le_trans (le_of_not_lt hlt)
          (le_trans (bestStep_le dets worse c b i) (bestFold_mono dets worse c xs _))
    · rw [List.foldl_cons]
      exact ih _ i hi2 hw hc hcase

/-! ## Claims C6, C7, C10 -/

/-- C6 counterexample: the batch exC6 contains a background-class (0)
detection (at index 1), yet processing does not fail: the background
detection pixel-overlaps a higher-scoring detection, is marked worse, and
is silently skipped; the page is annotated from detection 0 alone.  This
refutes the claim that any background detection in the batch is fatal and
never skipped. -/
theorem claim6_counterexample :
    (detAt exC6 1).cat = 0 ∧ acceptedDetections exC6 = .ok [0] :=
  ⟨rfl, rfl⟩

/-- C6 (amended): a background-class detection that is NOT marked worse by
the pairwise-overlap stage makes processing of the page fail with the
fatal detector-output error; background detections marked worse are
silently skipped instead. -/
theorem claim6_theorem (dets : List Det) (i : Nat) (hi : i < dets.length)
    (hw : (worseList dets).contains i = false)
    (hc : (detAt dets i).cat = 0) :
    acceptedDetections dets = .error () := by
  unfold acceptedDetections
  exact detFold_bg dets (worseList dets) (List.range dets.length) []
    ⟨i, List.mem_range.mpr hi, hw, hc⟩

/-- C6 witness: a batch with a single background detection (not marked
worse) makes processing fail. -/
theorem claim6_witness : acceptedDetections exC6w = .error () :=
  claim6_theorem exC6w 0 (by decide) (by decide) (by decide)

/-- C7: among detections not marked worse (and absent any non-worse
background detection, which would abort the page), a detection of a
singleton class (1 or 2) is accepted iff its score equals the per-class
best score, which is an upper bound on all non-worse scores of that class;
lower-scoring detections of the class are dropped even when spatially
disjoint from everything. -/
theorem claim7_theorem (dets : List Det)
    (hbg : ∀ j, j < dets.length → (worseList dets).contains j = false →
      (detAt dets j).cat ≠ 0)
    (i : Nat) (hi : i < dets.length)
    (hwi : (worseList dets).contains i = false)
    (hci : (detAt dets i).cat = 1 ∨ (detAt dets i).cat = 2) :
    acceptedDetections dets =
      .ok ((List.range dets.length).filter (keepB dets (worseList dets)))
    ∧ ((i ∈ (List.range dets.length).filter (keepB dets (worseList dets))) ↔
        (detAt dets i).score = bestScore dets (worseList dets) (detAt dets i).cat)
    ∧ (∀ j, j < dets.length → (worseList dets).contains j = false →
        (detAt dets j).cat = (detAt dets i).cat →
        (detAt dets j).score ≤
          bestScore dets (worseList dets) (detAt dets i).cat) := by
  have h1 : acceptedDetections dets =
      .ok ((List.range dets.length).filter (keepB dets (worseList dets))) := by
    unfold acceptedDetections
    have h := detFold_ok dets (worseList dets) (List.range dets.length) []
      (fun j hj hw => hbg j (List.mem_range.mp hj) hw)
    simpa using h
  have hub : ∀ j, j < dets.length → (worseList dets).contains j = false →
      (detAt dets j).cat = (detAt dets i).cat →
      (detAt dets j).score ≤
        bestScore dets (worseList dets) (detAt dets i).cat := by
    intro j hj hw hc
    exact bestFold_ge dets (worseList dets) (detAt dets i).cat
      (List.range dets.length) 0 j (List.mem_range.mpr hj) hw hc
      (by rw [hc]; exact hci)
  have hscorei : (detAt dets i).score ≤
      bestScore dets (worseList dets) (detAt dets i).cat :=
    hub i hi hwi rfl
  have hwi2 : i ∉ worseList dets := by simpa using hwi
  refine ⟨h1, ?_, hub⟩
  rw [List.mem_filter, List.mem_range]
  constructor
  · rintro ⟨-, hk⟩
    have hk2 : i ∉ worseList dets ∧
        bestScore dets (worseList dets) (detAt dets i).cat ≤
          (detAt dets i).score := by
      simpa [keepB] using hk
    exact le_antisymm hscorei hk2.2
  · intro heq
    refine ⟨hi, ?_⟩
    simp [keepB, hwi2, heq]

/-- C7 witness: the spec's concrete example — two non-overlapping
singleton-class-1 detections scoring 0.9 and 0.6 (scaled by 10); only the
0.9 detection is accepted. -/
theorem claim7_witness : acceptedDetections exC7 = .ok [0] := by
  have h := claim7_theorem exC7 (by decide) 0 (by decide) (by decide)
    (by decide)
  exact h.1.trans (by rfl)

/-- C10 counterexample: in the batch exC10, detections 0 and 1 overlap with
exactly equal scores, and their pair does mark 1 as worse — but detection 0
does not survive the pairwise-overlap stage, because it also overlaps the
higher-scoring detection 2.  This refutes the claim that the earlier
detection of an equal-score overlapping pair survives the stage. -/
theorem claim10_counterexample :
    overlapB (detAt exC10 0).mask (detAt exC10 1).mask = true ∧
    (detAt exC10 0).score = (detAt exC10 1).score ∧
    0 ∈ worseList exC10 := by
  refine ⟨rfl, rfl, ?_⟩
  decide

/-- C10 (amended): for a pair i < j of overlapping detections with exactly
equal scores, the pair marks the later index j worse, never i; the earlier
detection i survives the pairwise stage provided no other detection's mask
overlaps i's.  The outcome is deterministic in batch index order. -/
theorem claim10_theorem (dets : List Det) (i j : Nat) (hij : i < j)
    (hj : j < dets.length)
    (hov : overlapB (detAt dets i).mask (detAt dets j).mask = true)
    (hsc : (detAt dets i).score = (detAt dets j).score)
    (hiso : ∀ k, k < dets.length → k ≠ i → k ≠ j →
      overlapB (detAt dets i).mask (detAt dets k).mask = false ∧
      overlapB (detAt dets k).mask (detAt dets i).mask = false) :
    j ∈ worseList dets ∧ i ∉ worseList dets := by
  constructor
  · exact mem_worseList.mpr ⟨i, j, hij, hj, hov, by rw [hsc]; simp⟩
  · intro hmem
    obtain ⟨a, b, hab, hbn, hovab, heq⟩ := mem_worseList.mp hmem
    by_cases hlt : (detAt dets a).score < (detAt dets b).score
    · rw [if_pos hlt] at heq
      subst heq
      by_cases hbj : b = j
      · subst hbj
        rw [hsc] at hlt
        exact lt_irrefl _ hlt
      · have hbne : b ≠ i := by omega
        have := (hiso b hbn hbne hbj).1
        rw [hovab] at this
        cases this
    · rw [if_neg hlt] at heq
      subst heq
      have hai : a ≠ i := by omega
      have haj : a ≠ j := by omega
      have han : a < dets.length := by omega
      have := (hiso a han hai haj).2
      rw [hovab] at this
      cases this

/-- C10 witness: a two-detection batch, overlapping masks, equal scores:
detection 1 is marked worse and detection 0 survives. -/
theorem claim10_witness : 1 ∈ worseList exC10w ∧ 0 ∉ worseList exC10w :=
  claim10_theorem exC10w 0 1 (by decide) (by decide) (by decide) (by decide)
    (by decide)

/-! ## Claim C3 -/

theorem simplifyGo_spec {P : Type} (simplify : P → Nat → P)
    (isValid : P → Bool) (L : List Nat) : ∀ p : P,
    isValid (simplifyGo simplify isValid p L) = true ∨
      simplifyGo simplify isValid p L = L.foldl simplify p := by
  induction L with
  | nil => intro p; exact Or.inr rfl
  | cons t ts ih =>
    intro p
    by_cases hv : isValid (simplify p t) = true
    · left
      simp only [simplifyGo]
      rw [if_pos hv]
      exact hv
    · have hstep : simplifyGo simplify isValid p (t :: ts) =
          simplifyGo simplify isValid (simplify p t) ts := by
        simp only [simplifyGo]
        rw [if_neg hv]
      rw [hstep, List.foldl_cons]
      exact ih (simplify p t)

/-- C3 counterexample: a detection mask of pixel area 3 — e.g. three
diagonal pixels — produces a degenerate (invalid) contour polygon that
simplification leaves unchanged; the tolerance range range(2, 3) = [2] is
exhausted without ever producing a valid polygon (for area 2 it would even
be empty), and the loop returns the polygon invalid and unvalidated.  This
refutes "mask vectorization never returns an invalid polygon". -/
theorem claim3_counterexample :
    exC3valid (simplifyLoop exC3simplify exC3valid 3 0) = false := rfl

/-- C3 (amended): the loop applies tolerances 2, 3, ..., area-1
cumulatively and stops at the first valid intermediate: the result is
either valid or equal to the full fold over the whole tolerance range (in
particular, when the range is empty or no tolerance yields validity, the
last — possibly invalid — polygon is returned without further checks); if
the first simplification at tolerance 2 is already valid the loop stops
there; the returned boundary is the exterior ring with exactly its closing
vertex dropped (open boundary). -/
theorem claim3_theorem {P Q : Type} (simplify : P → Nat → P)
    (isValid : P → Bool) (area : Nat) (p0 : P) (ring : List Q) (xs : List Q)
    (x0 : Q) (hring : ring = xs ++ [x0]) :
    (isValid (simplifyLoop simplify isValid area p0) = true ∨
      simplifyLoop simplify isValid area p0 = (tolList area).foldl simplify p0)
    ∧ (3 ≤ area → isValid (simplify p0 2) = true →
        simplifyLoop simplify isValid area p0 = simplify p0 2)
    ∧ openBoundary ring = xs := by
  refine ⟨simplifyGo_spec simplify isValid (tolList area) p0, ?_, ?_⟩
  · intro ha hv
    have hexp : tolList area = 2 :: List.range' 3 (area - 3) := by
      unfold tolList
      have h2 : area - 2 = (area - 3) + 1 := by omega
      rw [h2, List.range'_succ]
    rw [simplifyLoop, hexp]
    simp only [simplifyGo]
    rw [if_pos hv]
  · rw [hring]
    simp only [openBoundary]
    exact List.dropLast_concat

/-- C3 witness: a concrete simplify oracle (each tolerance adds its value)
with validity reached only above 10: for a mask of area 4 the tolerances
[2, 3] are exhausted and the full fold is returned; and the open-boundary
extraction of the closed ring [7, 8, 7] is [7, 8]. -/
theorem claim3_witness :
    (exC3wvalid (simplifyLoop exC3wsimplify exC3wvalid 4 0) = true ∨
      simplifyLoop exC3wsimplify exC3wvalid 4 0 =
        (tolList 4).foldl exC3wsimplify 0)
    ∧ (3 ≤ 4 → exC3wvalid (exC3wsimplify 0 2) = true →
        simplifyLoop exC3wsimplify exC3wvalid 4 0 = exC3wsimplify 0 2)
    ∧ openBoundary [7, 8, 7] = [7, 8] :=
  claim3_theorem exC3wsimplify exC3wvalid 4 0 [7, 8, 7] [7, 8] 7 rfl

/-! ## Helper lemmas: planner on a pair of regions -/

theorem sortByArea_pair {P : Type} (geo : Repair.Geo P)
    (x y : Repair.RegionPoly P) :
    Repair.sortByArea geo [x, y] =
      if geo.area x.poly ≤ geo.area y.poly then [x, y] else [y, x] := by
  simp only [Repair.sortByArea, List.foldl_cons, List.foldl_nil]
  by_cases h : geo.area x.poly ≤ geo.area y.poly
  · rw [if_pos h]
    simp [Repair.insertRP, h]
  · rw [if_neg h]
    simp [Repair.insertRP, h]

theorem pairLoop_pair {P : Type} (geo : Repair.Geo P) (thr : ℚ)
    (r1 r2 : Repair.RegionPoly P) (acc : Repair.Marks) :
    Repair.pairLoop geo thr [r1, r2] acc =
      Repair.comparePair geo thr r1 r2 acc := by
  simp [Repair.pairLoop]

/-! ## Claims C1, C4, C5 -/

/-- C1 counterexample: B (handle 1) is strictly contained in A (handle 0) —
contains holds one way only — but the two polygons are almost equal
(realizable as a square and its 1e-9 inset, equal to 6 decimals).  The
area sort puts B first, and the almost_equals branch fires before the
containment branches, deleting region2 = A, the container.  The claim that
such a pair always deletes B and never A is false. -/
theorem claim1_counterexample :
    exC1geo.contains 0 1 = true ∧ exC1geo.contains 1 0 = false ∧
    Repair.planMarks exC1geo 0 exC1rps = ⟨["A"], []⟩ :=
  ⟨rfl, rfl, rfl⟩

/-- C1 (amended): for a pair with B strictly contained in A (contains holds
from A to B only) that is NOT almost-equal under the tolerance check, the
plan deletes B and never A, regardless of the order of the two regions in
the input list. -/
theorem claim1_theorem {P : Type} (geo : Repair.Geo P) (thr : ℚ)
    (idA idB : String) (pA pB : P)
    (hc1 : geo.contains pA pB = true) (hc2 : geo.contains pB pA = false)
    (he1 : geo.almostEquals pA pB = false)
    (he2 : geo.almostEquals pB pA = false) (hid : idA ≠ idB) :
    Repair.planMarks geo thr [⟨idA, pA⟩, ⟨idB, pB⟩] = ⟨[idB], []⟩
    ∧ Repair.planMarks geo thr [⟨idB, pB⟩, ⟨idA, pA⟩] = ⟨[idB], []⟩
    ∧ idA ∉ (Repair.planMarks geo thr [⟨idA, pA⟩, ⟨idB, pB⟩]).del
    ∧ idA ∉ (Repair.planMarks geo thr [⟨idB, pB⟩, ⟨idA, pA⟩]).del := by
  have h1 : Repair.planMarks geo thr [⟨idA, pA⟩, ⟨idB, pB⟩] = ⟨[idB], []⟩ := by
    unfold Repair.planMarks
    rw [sortByArea_pair]
    by_cases h : geo.area pA ≤ geo.area pB
    · rw [if_pos h, pairLoop_pair]
      simp [Repair.comparePair, he1, hc1]
    · rw [if_neg h, pairLoop_pair]
      simp [Repair.comparePair, he2, hc2, hc1]
  have h2 : Repair.planMarks geo thr [⟨idB, pB⟩, ⟨idA, pA⟩] = ⟨[idB], []⟩ := by
    unfold Repair.planMarks
    rw [sortByArea_pair]
    by_cases h : geo.area pB ≤ geo.area pA
    · rw [if_pos h, pairLoop_pair]
      simp [Repair.comparePair, he2, hc2, hc1]
    · rw [if_neg h, pairLoop_pair]
      simp [Repair.comparePair, he1, hc1]
  refine ⟨h1, h2, ?_, ?_⟩
  · rw [h1]; simp [hid]
  · rw [h2]; simp [hid]

/-- C1 witness: a strictly contained, not almost-equal pair at a concrete
oracle: B is deleted and A is not, in both input orders. -/
theorem claim1_witness :
    Repair.planMarks exC1wgeo 0 [⟨"A", 0⟩, ⟨"B", 1⟩] = ⟨["B"], []⟩
    ∧ Repair.planMarks exC1wgeo 0 [⟨"B", 1⟩, ⟨"A", 0⟩] = ⟨["B"], []⟩
    ∧ "A" ∉ (Repair.planMarks exC1wgeo 0 [⟨"A", 0⟩, ⟨"B", 1⟩]).del
    ∧ "A" ∉ (Repair.planMarks exC1wgeo 0 [⟨"B", 1⟩, ⟨"A", 0⟩]).del :=
  claim1_theorem exC1wgeo 0 "A" "B" 0 1 rfl rfl rfl rfl (by decide)

/-- C4: two polygons that overlap (so are not equal and not in containment)
whose union's convex hull does not beat the sum of their areas are skipped
by the hull guard: the pair produces no deletion and no merge, in either
input order. -/
theorem claim4_theorem {P : Type} (geo : Repair.Geo P) (thr : ℚ)
    (idA idB : String) (pA pB : P)
    (he1 : geo.almostEquals pA pB = false)
    (he2 : geo.almostEquals pB pA = false)
    (hc1 : geo.contains pA pB = false) (hc2 : geo.contains pB pA = false)
    (ho1 : geo.overlaps pA pB = true) (ho2 : geo.overlaps pB pA = true)
    (hh1 : geo.area pA + geo.area pB ≤ geo.unionHullArea pA pB)
    (hh2 : geo.area pB + geo.area pA ≤ geo.unionHullArea pB pA) :
    Repair.planMarks geo thr [⟨idA, pA⟩, ⟨idB, pB⟩] = ⟨[], []⟩
    ∧ Repair.planMarks geo thr [⟨idB, pB⟩, ⟨idA, pA⟩] = ⟨[], []⟩ := by
  constructor
  · unfold Repair.planMarks
    rw [sortByArea_pair]
    by_cases h : geo.area pA ≤ geo.area pB
    · rw [if_pos h, pairLoop_pair]
      simp [Repair.comparePair, he1, hc1, hc2, ho1, hh1]
    · rw [if_neg h, pairLoop_pair]
      simp [Repair.comparePair, he2, hc2, hc1, ho2, hh2]
  · unfold Repair.planMarks
    rw [sortByArea_pair]
    by_cases h : geo.area pB ≤ geo.area pA
    · rw [if_pos h, pairLoop_pair]
      simp [Repair.comparePair, he2, hc2, hc1, ho2, hh2]
    · rw [if_neg h, pairLoop_pair]
      simp [Repair.comparePair, he1, hc1, hc2, ho1, hh1]

/-- C4 witness: overlapping polygons of area 10 each with union hull area
20 ≥ 10 + 10 are treated as disjoint — the plan is empty. -/
theorem claim4_witness :
    Repair.planMarks exC4geo 0 [⟨"A", 0⟩, ⟨"B", 1⟩] = ⟨[], []⟩
    ∧ Repair.planMarks exC4geo 0 [⟨"B", 1⟩, ⟨"A", 0⟩] = ⟨[], []⟩ :=
  claim4_theorem exC4geo 0 "A" "B" 0 1 rfl rfl rfl rfl rfl rfl
    (by norm_num [exC4geo]) (by norm_num [exC4geo])

/-- C5: for A strictly smaller than B, overlapping, not (almost) equal, not
in containment, with the hull guard not firing: if rb = inter/area(B)
strictly exceeds the threshold, B is marked for merging into A; otherwise
if ra = inter/area(A) strictly exceeds it, A is marked for merging into B;
otherwise neither region is marked — in either input order. -/
theorem claim5_theorem {P : Type} (geo : Repair.Geo P) (thr : ℚ)
    (idA idB : String) (pA pB : P)
    (harea : geo.area pA < geo.area pB)
    (he1 : geo.almostEquals pA pB = false)
    (hc1 : geo.contains pA pB = false) (hc2 : geo.contains pB pA = false)
    (ho1 : geo.overlaps pA pB = true)
    (hh1 : geo.unionHullArea pA pB < geo.area pA + geo.area pB) :
    (thr < geo.interArea pA pB / geo.area pB →
      Repair.planMarks geo thr [⟨idA, pA⟩, ⟨idB, pB⟩] = ⟨[], [(idB, idA)]⟩
      ∧ Repair.planMarks geo thr [⟨idB, pB⟩, ⟨idA, pA⟩] = ⟨[], [(idB, idA)]⟩)
    ∧ (¬(thr < geo.interArea pA pB / geo.area pB) →
        thr < geo.interArea pA pB / geo.area pA →
      Repair.planMarks geo thr [⟨idA, pA⟩, ⟨idB, pB⟩] = ⟨[], [(idA, idB)]⟩
      ∧ Repair.planMarks geo thr [⟨idB, pB⟩, ⟨idA, pA⟩] = ⟨[], [(idA, idB)]⟩)
    ∧ (¬(thr < geo.interArea pA pB / geo.area pB) →
        ¬(thr < geo.interArea pA pB / geo.area pA) →
      Repair.planMarks geo thr [⟨idA, pA⟩, ⟨idB, pB⟩] = ⟨[], []⟩
      ∧ Repair.planMarks geo thr [⟨idB, pB⟩, ⟨idA, pA⟩] = ⟨[], []⟩) := by
  have hs1 : Repair.planMarks geo thr [⟨idA, pA⟩, ⟨idB, pB⟩] =
      Repair.comparePair geo thr ⟨idA, pA⟩ ⟨idB, pB⟩ ⟨[], []⟩ := by
    unfold Repair.planMarks
    rw [sortByArea_pair]
    rw [if_pos (le_of_lt harea), pairLoop_pair]
  have hs2 : Repair.planMarks geo thr [⟨idB, pB⟩, ⟨idA, pA⟩] =
      Repair.comparePair geo thr ⟨idA, pA⟩ ⟨idB, pB⟩ ⟨[], []⟩ := by
    unfold Repair.planMarks
    rw [sortByArea_pair]
    rw [if_neg (not_le.mpr harea), pairLoop_pair]
  refine ⟨?_, ?_, ?_⟩
  · intro hb
    have hcp : Repair.comparePair geo thr ⟨idA, pA⟩ ⟨idB, pB⟩ ⟨[], []⟩ =
        ⟨[], [(idB, idA)]⟩ := by
      simp [Repair.comparePair, he1, hc1, hc2, ho1, not_le.mpr hh1, hb,
        Repair.dictSet]
    exact ⟨hs1.trans hcp, hs2.trans hcp⟩
  · intro hb ha
    have hcp : Repair.comparePair geo thr ⟨idA, pA⟩ ⟨idB, pB⟩ ⟨[], []⟩ =
        ⟨[], [(idA, idB)]⟩ := by
      simp [Repair.comparePair, he1, hc1, hc2, ho1, not_le.mpr hh1, hb, ha,
        Repair.dictSet]
    exact ⟨hs1.trans hcp, hs2.trans hcp⟩
  · intro hb ha
    have hcp : Repair.comparePair geo thr ⟨idA, pA⟩ ⟨idB, pB⟩ ⟨[], []⟩ =
        ⟨[], []⟩ := by
      simp [Repair.comparePair, he1, hc1, hc2, ho1, not_le.mpr hh1, hb, ha]
    exact ⟨hs1.trans hcp, hs2.trans hcp⟩

/-- C5 witness: A of area 1, B of area 2, intersection area 1, hull 2 <
1 + 2, threshold 0: rb = 1/2 > 0, so B is marked for merging into A in
both input orders. -/
theorem claim5_witness :
    Repair.planMarks exC5geo 0 [⟨"A", 0⟩, ⟨"B", 1⟩] = ⟨[], [("B", "A")]⟩
    ∧ Repair.planMarks exC5geo 0 [⟨"B", 1⟩, ⟨"A", 0⟩] = ⟨[], [("B", "A")]⟩ := by
  have h := claim5_theorem exC5geo 0 "A" "B" 0 1 (by norm_num [exC5geo])
    rfl rfl rfl rfl (by norm_num [exC5geo])
  exact h.1 (by norm_num [exC5geo])

/-! ## Claim C2 -/

/-- C2: evaluation of _plausibilize_group at the failing input — an Ordered
node with RegionRefIndexed children a (index 0), b (index 1) and an
OrderedGroupIndexed subgroup child (index 2), deleting b.  Two slips break
the claim: (1) line 387 rebinds the `regionrefs` variable to the sibling
list of the removed element's own class only, so the re-indexing of lines
391-395 renumbers just the RegionRefIndexed list ([a] gets index 0) while
the subgroup child keeps its stale index 2 — the remaining children's
indices are {0, 2}, not the dense 0..1; and (2) because the recursive call
of line 334 already ran the wait_for_deletion removal (lines 397-400) for
every marked region, the outer call's list.remove raises ValueError
(modelled as Except.error), so processing does not even complete. -/
theorem claim2_theorem :
    Repair.plausGroup exC2geo exC2rps ["b"] [] exC2group exC2page =
      .error () := rfl

/-! ## Claim C9 -/

/-- C9 counterexample: executing a plan that merges region b into region a
on a flat Ordered reading order [a(0), b(1)] removes b's reading-order
element outright (one child remains) instead of redirecting it to the
surviving superregion a (which would leave two children).  The merge
geometry is applied to a (coords 10 ∪ 20 observed as 30) and b is removed
from the page, but the claim's redirect behaviour is refuted. -/
theorem claim9_counterexample :
    Repair.plausGroup exC9geo exC9rps [] [("b", "a")] exC9group exC9page =
      .ok (.mk true "" 0 [⟨"a", 0⟩] [] [], [⟨"a", 30⟩])
    ∧ ¬ ∃ g1 page1,
        Repair.plausGroup exC9geo exC9rps [] [("b", "a")] exC9group exC9page =
          .ok (g1, page1) ∧ g1.refs.length = 2 := by
  refine ⟨rfl, ?_⟩
  rintro ⟨g1, page1, heq, hlen⟩
  rw [show Repair.plausGroup exC9geo exC9rps [] [("b", "a")] exC9group
        exC9page =
      .ok (.mk true "" 0 [⟨"a", 0⟩] [] [], [⟨"a", 30⟩]) from rfl] at heq
  injection heq with h1
  injection h1 with hg hp
  rw [← hg] at hlen
  simp [Repair.ROGroup.refs] at hlen

/-- Fields of the steal-loop state that the inner text-line fold never
touches (stealLineStep only updates hasAddress, regionLines, regionPoly). -/
theorem stealLines_fields {P : Type} (geo : Classify.CGeo P) (rid : String)
    (lines : List (Classify.CLine P)) : ∀ st : Classify.StealState P,
    (lines.foldl (Classify.stealLineStep geo rid) st).ro = st.ro ∧
    (lines.foldl (Classify.stealLineStep geo rid) st).page = st.page ∧
    (lines.foldl (Classify.stealLineStep geo rid) st).oldRegions =
      st.oldRegions := by
  induction lines with
  | nil => intro st; exact ⟨rfl, rfl, rfl⟩
  | cons l ls ih =>
    intro st
    rw [List.foldl_cons]
    exact ih (Classify.stealLineStep geo rid st l)

/-- C9 (amended): in repair plausibilization the reading-order reference of
a deleted region is removed entirely — for a merge-loser just as for a pure
duplicate deletion — and ordered siblings are re-indexed densely; in both
cases the region is removed from its owning page collection (with the
merge first growing the survivor's boundary by the union).  The separate
detector-replacement path (classify_address_layout) does redirect a
superseded region's reading-order element to the new candidate region. -/
theorem claim9_theorem {P P2 : Type} (geo : Repair.Geo P) (cA cB pA pB : P)
    (cgeo : Classify.CGeo P2) (scale : Nat) (poly0 nbPoly : P2)
    (nbLines : List (Classify.CLine P2)) (nbText : Option String)
    (eref : String) (hw : cgeo.within nbPoly poly0 = true) :
    Repair.plausGroup geo [⟨"a", pA⟩, ⟨"b", pB⟩] [] [("b", "a")]
        (.mk true "" 0 [⟨"a", 0⟩, ⟨"b", 1⟩] [] []) [⟨"a", cA⟩, ⟨"b", cB⟩] =
      .ok (.mk true "" 0 [⟨"a", 0⟩] [] [],
        [⟨"a", geo.unionExterior cA pB⟩])
    ∧ Repair.plausGroup geo [⟨"a", pA⟩, ⟨"b", pB⟩] ["b"] []
        (.mk true "" 0 [⟨"a", 0⟩, ⟨"b", 1⟩] [] []) [⟨"a", cA⟩, ⟨"b", cB⟩] =
      .ok (.mk true "" 0 [⟨"a", 0⟩] [] [], [⟨"a", cA⟩])
    ∧ (Classify.runDetection cgeo scale "new" poly0
        [⟨"r0", nbLines, nbPoly, nbText⟩] [⟨"r0", nbLines, nbPoly, nbText⟩]
        [("r0", eref)]).ro = [("new", "new")] := by
  refine ⟨rfl, rfl, ?_⟩
  have hro : (Classify.runDetection cgeo scale "new" poly0
      [⟨"r0", nbLines, nbPoly, nbText⟩] [⟨"r0", nbLines, nbPoly, nbText⟩]
      [("r0", eref)]).ro =
      (Classify.stealNeighbourStep cgeo scale "new"
        ⟨[], poly0, none, false, [], [⟨"r0", nbLines, nbPoly, nbText⟩],
          [("r0", eref)]⟩
        ⟨"r0", nbLines, nbPoly, nbText⟩).ro := rfl
  rw [hro]
  have hmatch : Classify.nbMatch cgeo scale nbPoly poly0 = true := by
    simp [Classify.nbMatch, hw]
  simp only [Classify.stealNeighbourStep]
  rw [if_neg (by simp), if_pos hmatch]
  have hfields := stealLines_fields cgeo "new" nbLines
    ⟨[], poly0, none, false, [], [⟨"r0", nbLines, nbPoly, nbText⟩],
      [("r0", eref)]⟩
  simp only [hfields.1]
  rfl

/-- C9 witness: the amended behaviour at concrete inputs — merge deletes
the loser's reference and applies the union (10 ∪ 20 = 30), pure deletion
does the same without geometry, and the classify path redirects. -/
theorem claim9_witness :
    Repair.plausGroup exC9geo [⟨"a", 10⟩, ⟨"b", 20⟩] [] [("b", "a")]
        (.mk true "" 0 [⟨"a", 0⟩, ⟨"b", 1⟩] [] []) [⟨"a", 10⟩, ⟨"b", 20⟩] =
      .ok (.mk true "" 0 [⟨"a", 0⟩] [] [],
        [⟨"a", exC9geo.unionExterior 10 20⟩])
    ∧ Repair.plausGroup exC9geo [⟨"a", 10⟩, ⟨"b", 20⟩] ["b"] []
        (.mk true "" 0 [⟨"a", 0⟩, ⟨"b", 1⟩] [] []) [⟨"a", 10⟩, ⟨"b", 20⟩] =
      .ok (.mk true "" 0 [⟨"a", 0⟩] [] [], [⟨"a", 10⟩])
    ∧ (Classify.runDetection exC8geo 1 "new" 9
        [⟨"r0", exC8nb.lines, 7, none⟩] [⟨"r0", exC8nb.lines, 7, none⟩]
        [("r0", "r0")]).ro = [("new", "new")] :=
  claim9_theorem exC9geo 10 20 10 20 exC8geo 1 9 7 exC8nb.lines none "r0" rfl

/-! ## Claim C8 -/

/-- The ghost-detection invariant: the hasAddress flag equals the
startswith-'subtype: ADDRESS_' check over the candidate's stolen lines. -/
theorem stealLines_inv {P : Type} (geo : Classify.CGeo P) (rid : String)
    (lines : List (Classify.CLine P)) : ∀ st : Classify.StealState P,
    st.hasAddress = st.regionLines.any (fun l => Classify.stealCheck l.custom) →
    (lines.foldl (Classify.stealLineStep geo rid) st).hasAddress =
      (lines.foldl (Classify.stealLineStep geo rid) st).regionLines.any
        (fun l => Classify.stealCheck l.custom) := by
  induction lines with
  | nil => intro st h; exact h
  | cons l ls ih =>
    intro st h
    rw [List.foldl_cons]
    refine ih _ ?_
    simp [Classify.stealLineStep, List.any_append, h]

theorem removeRegionById_subset {P : Type} (l : List (Classify.CRegion P))
    (rid : String) : ∀ r ∈ Classify.removeRegionById l rid, r ∈ l := by
  induction l with
  | nil => intro r hr; cases hr
  | cons x xs ih =>
    intro r hr
    by_cases hx : x.id = rid
    · simp only [Classify.removeRegionById, if_pos hx] at hr
      exact List.mem_cons_of_mem x hr
    · simp only [Classify.removeRegionById, if_neg hx] at hr
      rcases List.mem_cons.mp hr with rfl | hr2
      · exact List.mem_cons_self r xs
      · exact List.mem_cons_of_mem x (ih r hr2)

theorem stealNeighbour_inv {P : Type} (geo : Classify.CGeo P) (scale : Nat)
    (rid : String) (st : Classify.StealState P) (nb : Classify.CRegion P)
    (h : st.hasAddress =
      st.regionLines.any (fun l => Classify.stealCheck l.custom)) :
    (Classify.stealNeighbourStep geo scale rid st nb).hasAddress =
      (Classify.stealNeighbourStep geo scale rid st nb).regionLines.any
        (fun l => Classify.stealCheck l.custom) := by
  unfold Classify.stealNeighbourStep
  by_cases h1 : st.oldRegions.contains nb.id = true
  · rw [if_pos h1]
    exact h
  · rw [if_neg h1]
    by_cases h2 : Classify.nbMatch geo scale nb.poly st.regionPoly = true
    · rw [if_pos h2]
      exact stealLines_inv geo rid nb.lines st h
    · rw [if_neg h2]
      exact h

theorem stealNeighbour_page {P : Type} (geo : Classify.CGeo P) (scale : Nat)
    (rid : String) (st : Classify.StealState P) (nb : Classify.CRegion P) :
    ∀ r ∈ (Classify.stealNeighbourStep geo scale rid st nb).page,
      r ∈ st.page := by
  unfold Classify.stealNeighbourStep
  by_cases h1 : st.oldRegions.contains nb.id = true
  · rw [if_pos h1]
    intro r hr
    exact hr
  · rw [if_neg h1]
    by_cases h2 : Classify.nbMatch geo scale nb.poly st.regionPoly = true
    · rw [if_pos h2]
      intro r hr
      simp only at hr
      have := removeRegionById_subset _ nb.id r hr
      rw [(stealLines_fields geo rid nb.lines st).2.1] at this
      exact this
    · rw [if_neg h2]
      intro r hr
      exact hr

theorem stealFold_inv {P : Type} (geo : Classify.CGeo P) (scale : Nat)
    (rid : String) (nbs : List (Classify.CRegion P)) :
    ∀ st : Classify.StealState P,
    st.hasAddress = st.regionLines.any (fun l => Classify.stealCheck l.custom) →
    (∀ r ∈ st.page, r ∈ st.page) →
    ((nbs.foldl (Classify.stealNeighbourStep geo scale rid) st).hasAddress =
      (nbs.foldl (Classify.stealNeighbourStep geo scale rid) st).regionLines.any
        (fun l => Classify.stealCheck l.custom)) := by
  induction nbs with
  | nil => intro st h _; exact h
  | cons nb rest ih =>
    intro st h _
    rw [List.foldl_cons]
    exact ih _ (stealNeighbour_inv geo scale rid st nb h) (fun r hr => hr)

theorem stealFold_page {P : Type} (geo : Classify.CGeo P) (scale : Nat)
    (rid : String) (nbs : List (Classify.CRegion P)) :
    ∀ st : Classify.StealState P,
    ∀ r ∈ (nbs.foldl (Classify.stealNeighbourStep geo scale rid) st).page,
      r ∈ st.page := by
  induction nbs with
  | nil => intro st r hr; exact hr
  | cons nb rest ih =>
    intro st r hr
    rw [List.foldl_cons] at hr
    exact stealNeighbour_page geo scale rid st nb r (ih _ r hr)

/-- C8 counterexample: a candidate that steals exactly one line, tagged
'subtype: ADDRESS_NONE' — which the upstream classification uses to mark a
line as carrying NO address content (mark_line skips it) — passes the
ghost-detection guard (the guard only tests startswith('subtype: ADDRESS_'))
and IS added to the page.  This refutes the claim that a candidate without
any address-bearing stolen line is never added. -/
theorem claim8_counterexample :
    (Classify.runDetection exC8geo 1 "addressregion01" 9 [exC8nb] [exC8nb]
      []).added = true
    ∧ (∀ l ∈ (Classify.runDetection exC8geo 1 "addressregion01" 9 [exC8nb]
        [exC8nb] []).regionLines, markLineClass l.custom = false)
    ∧ ((Classify.runDetection exC8geo 1 "addressregion01" 9 [exC8nb] [exC8nb]
        []).page.map (fun r => r.id)) = ["addressregion01"] := by
  refine ⟨rfl, ?_, rfl⟩
  decide

/-- C8 (amended): a candidate is added to the page exactly when it acquires
at least one stolen line whose custom tag starts with 'subtype: ADDRESS_'
(a check that also accepts 'subtype: ADDRESS_NONE', i.e. lines explicitly
classified as non-address); a candidate acquiring no such line is rejected
and never appears in the page's region collection. -/
theorem claim8_theorem {P : Type} (geo : Classify.CGeo P) (scale : Nat)
    (rid : String) (poly0 : P) (nbs page0 : List (Classify.CRegion P))
    (ro0 : List (String × String))
    (hfresh : ∀ r ∈ page0, r.id ≠ rid) :
    (Classify.runDetection geo scale rid poly0 nbs page0 ro0).added =
      (Classify.runDetection geo scale rid poly0 nbs page0 ro0).regionLines.any
        (fun l => Classify.stealCheck l.custom)
    ∧ ((Classify.runDetection geo scale rid poly0 nbs page0 ro0).added = false →
        ∀ r ∈ (Classify.runDetection geo scale rid poly0 nbs page0 ro0).page,
          r.id ≠ rid) := by
  have hadded : (Classify.runDetection geo scale rid poly0 nbs page0 ro0).added =
      (nbs.foldl (Classify.stealNeighbourStep geo scale rid)
        ⟨[], poly0, none, false, [], page0, ro0⟩).hasAddress := rfl
  have hlines : (Classify.runDetection geo scale rid poly0 nbs page0
        ro0).regionLines =
      (nbs.foldl (Classify.stealNeighbourStep geo scale rid)
        ⟨[], poly0, none, false, [], page0, ro0⟩).regionLines := rfl
  constructor
  · rw [hadded, hlines]
    exact stealFold_inv geo scale rid nbs
      ⟨[], poly0, none, false, [], page0, ro0⟩ rfl (fun r hr => hr)
  · intro hnot r hr
    have hpage : (Classify.runDetection geo scale rid poly0 nbs page0
          ro0).page =
        (if (nbs.foldl (Classify.stealNeighbourStep geo scale rid)
            ⟨[], poly0, none, false, [], page0, ro0⟩).hasAddress then
          (nbs.foldl (Classify.stealNeighbourStep geo scale rid)
            ⟨[], poly0, none, false, [], page0, ro0⟩).page ++
            [⟨rid,
              (nbs.foldl (Classify.stealNeighbourStep geo scale rid)
                ⟨[], poly0, none, false, [], page0, ro0⟩).regionLines,
              (nbs.foldl (Classify.stealNeighbourStep geo scale rid)
                ⟨[], poly0, none, false, [], page0, ro0⟩).regionPoly,
              (nbs.foldl (Classify.stealNeighbourStep geo scale rid)
                ⟨[], poly0, none, false, [], page0, ro0⟩).regionText⟩]
        else
          (nbs.foldl (Classify.stealNeighbourStep geo scale rid)
            ⟨[], poly0, none, false, [], page0, ro0⟩).page) := rfl
    rw [hadded] at hnot
    rw [hpage, if_neg (by rw [hnot]; exact Bool.false_ne_true)] at hr
    exact hfresh r (stealFold_page geo scale rid nbs
      ⟨[], poly0, none, false, [], page0, ro0⟩ r hr)

/-- C8 witness: with a fresh candidate id, the amended equivalence applied
to the ADDRESS_NONE-line configuration. -/
theorem claim8_witness :
    (Classify.runDetection exC8geo 1 "addressregion01" 9 [exC8nb] [exC8nb]
      []).added =
      (Classify.runDetection exC8geo 1 "addressregion01" 9 [exC8nb] [exC8nb]
        []).regionLines.any (fun l => Classify.stealCheck l.custom)
    ∧ ((Classify.runDetection exC8geo 1 "addressregion01" 9 [exC8nb] [exC8nb]
        []).added = false →
        ∀ r ∈ (Classify.runDetection exC8geo 1 "addressregion01" 9 [exC8nb]
          [exC8nb] []).page, r.id ≠ "addressregion01") :=
  claim8_theorem exC8geo 1 "addressregion01" 9 [exC8nb] [exC8nb] []
    (by decide)

end OcrdSegment
